import Mathlib

set_option maxHeartbeats 1000000

/-!
Shallow embedding of the tech-lead pipeline repository.

The LangGraph variant (`tech_lead_langgraph/src/tech_lead_langgraph/graph.py`,
`mcp_tools.py`) is embedded as pure Lean functions over an explicit
`AgentState` record; remote MCP tool calls, JSON decoding and the LLM call
are passed in as explicit oracle functions returning `Except`, mirroring the
Python `try/except` structure.  The CrewAI tool-session layer
(`tech_lead_crew/src/tech_lead_crew/crew.py`) is embedded as a small state
machine over tool-handle identities, with `id()`-style object identity
modelled by a monotone counter.
-/

/-- Environment-variable map, modelling `os.getenv`: `none` means unset. -/
abbrev Env := String → Option String

/-- Python truthiness of an optional string (`None` and `""` are falsy). -/
def pyTruthy : Option String → Bool
  | none => false
  | some s => decide (s ≠ "")

/-- A chat message (LangChain `HumanMessage` / `AIMessage`), reduced to its
role and `content` field, which is all that the graph code reads. -/
inductive Msg where
  | human (content : String)
  | ai (content : String)
deriving DecidableEq

/-- The `content` attribute of a message. -/
def Msg.content : Msg → String
  | .human s => s
  | .ai s => s

/-- A decoded Jira issue record (`state["jira_issue"]`).  Optional fields
model dict keys that may be absent; `status`/`priority` hold the already
extracted `name` sub-field (absent models a missing or non-dict value);
`project` is `none` when the `project` key is absent or not a dict, and
`some k` when it is a dict whose `key` entry is `k` (possibly absent). -/
structure IssueRecord where
  summary : Option String := none
  description : Option String := none
  status : Option String := none
  priority : Option String := none
  assignee : Option String := none
  reporter : Option (String × String) := none
  labels : Option (List String) := none
  url : Option String := none
  project : Option (Option String) := none
deriving DecidableEq

/-- One entry of a repository file listing: either a dict (with possibly
missing `path`/`type` keys) or a non-dict JSON value. -/
inductive FileEntry where
  | dictE (path : Option String) (ftype : Option String)
  | otherE
deriving DecidableEq

/-- A decoded payload of `listRepositoryFiles`: either a dict containing a
`files` key, or any other JSON shape. -/
inductive FilesPayload where
  | filesDict (files : List FileEntry)
  | otherShape
deriving DecidableEq

/-- The `repo_files` mapping stored by `list_repo_files`: always a `root`
key, and conditionally a `web_store` key. -/
structure RepoFiles where
  root : FilesPayload
  web_store : Option FilesPayload := none
deriving DecidableEq

/-- One repository descriptor of `listRepositories` output: `some slug` for
a dict with a `slug` key, `none` otherwise. -/
abbrev RepoDesc := Option String

/-- The LangGraph `AgentState` record threaded through all stages. -/
structure AgentState where
  messages : List Msg := []
  jira_issue_key : String := ""
  jira_issue : Option IssueRecord := none
  workspace : Option String := none
  repo_slug : Option String := none
  repo_list : Option (List RepoDesc) := none
  repo_files : Option RepoFiles := none
  final_output : Option String := none
deriving DecidableEq

/-- Result of the Jira MCP tool call: a raw text payload, or an already
structured (non-string) result. -/
inductive Payload where
  | text (s : String)
  | record (j : IssueRecord)
deriving DecidableEq

/-- Attempt to match the regex `[A-Z]+-\d+` at the head of `l`, with
Python's leftmost/greedy semantics: the maximal run of uppercase letters,
then a literal hyphen, then the maximal run of digits. -/
def matchAt (l : List Char) : Option (List Char) :=
  if l.takeWhile Char.isUpper = [] then none
  else
    match l.dropWhile Char.isUpper with
    | [] => none
    | c :: r2 =>
      if c = '-' then
        if r2.takeWhile Char.isDigit = [] then none
        else some (l.takeWhile Char.isUpper ++ c :: r2.takeWhile Char.isDigit)
      else none

/-- `re.search(r'([A-Z]+-\d+)', content)`: try a match at every position,
left to right, returning the first (leftmost) one. -/
def findKey : List Char → Option (List Char)
  | [] => none
  | c :: cs =>
    match matchAt (c :: cs) with
    | some m => some m
    | none => findKey cs

/-- Python `str.strip()`: drop whitespace from both ends. -/
def trimList (l : List Char) : List Char :=
  ((l.dropWhile Char.isWhitespace).reverse.dropWhile Char.isWhitespace).reverse

/-- `re.match(r'^[A-Z]+-\d+$', s)`: the whole list is one issue key. -/
def fullKeyMatch (l : List Char) : Bool :=
  match l.dropWhile Char.isUpper with
  | c :: r2 =>
    !(l.takeWhile Char.isUpper).isEmpty && decide (c = '-') &&
      !r2.isEmpty && r2.all Char.isDigit
  | [] => false

/-- The literal prefix of the Bitbucket URL regex in `extract_repo_info`:
`https://source\.app\.pconnect\.biz/projects/`. -/
def bbLit : List Char := "https://source.app.pconnect.biz/projects/".data

/-- The literal middle part `/repos/` of the Bitbucket URL regex. -/
def bbRepos : List Char := "/repos/".data

/-- Bool test for a non-slash character, modelling the `[^/]` class. -/
def notSlash (c : Char) : Bool := decide (c ≠ '/')

/-- Attempt to match
`https://source\.app\.pconnect\.biz/projects/([^/]+)/repos/([^/]+)` at the
head of `l`; both groups are greedy maximal runs of non-slash characters. -/
def matchBBAt (l : List Char) : Option (String × String) :=
  if bbLit.isPrefixOf l then
    if (l.drop bbLit.length).takeWhile notSlash = [] then none
    else if bbRepos.isPrefixOf ((l.drop bbLit.length).dropWhile notSlash) then
      if (((l.drop bbLit.length).dropWhile notSlash).drop bbRepos.length).takeWhile
          notSlash = [] then none
      else
        some (String.mk ((l.drop bbLit.length).takeWhile notSlash),
          String.mk ((((l.drop bbLit.length).dropWhile notSlash).drop
            bbRepos.length).takeWhile notSlash))
    else none
  else none

/-- `re.search` of the Bitbucket URL pattern: first matching position. -/
def findBB : List Char → Option (String × String)
  | [] => none
  | c :: cs =>
    match matchBBAt (c :: cs) with
    | some x => some x
    | none => findBB cs

/-- A LangChain-wrapped MCP tool (`MCPLangChainTool`), keeping the fields
`create_jira_tools`/`create_bitbucket_tools` construct it with. -/
structure MCPTool where
  mcp_url : String
  mcp_tool_name : String
  name : String
  descr : String
deriving DecidableEq

/-- `os.getenv("JIRA_MCP_URL", "http://localhost:3001/mcp")` as used by
`mcp_tools.create_jira_tools`. -/
def jiraMcpUrl (env : Env) : String :=
  (env "JIRA_MCP_URL").getD "http://localhost:3001/mcp"

/-- `os.getenv("BITBUCKET_MCP_URL", "http://localhost:3000/mcp")` as used by
`mcp_tools.create_bitbucket_tools`. -/
def bitbucketMcpUrl (env : Env) : String :=
  (env "BITBUCKET_MCP_URL").getD "http://localhost:3000/mcp"

/-- `mcp_tools.create_jira_tools`: one tool, with a defaulted endpoint. -/
def createJiraTools (env : Env) : List MCPTool :=
  [⟨jiraMcpUrl env, "jira_get_issue", "jira_get_issue",
    "Retrieve a Jira issue by key"⟩]

/-- `mcp_tools.create_bitbucket_tools`: two tools, defaulted endpoint. -/
def createBitbucketTools (env : Env) : List MCPTool :=
  [⟨bitbucketMcpUrl env, "listRepositories", "listRepositories",
    "List repositories in a Bitbucket workspace"⟩,
   ⟨bitbucketMcpUrl env, "listRepositoryFiles", "listRepositoryFiles",
    "List files in a Bitbucket repository"⟩]

/-- `graph.create_mcp_tools`: reads both endpoint variables with no default
and raises `ValueError` when either is falsy; otherwise returns the
placeholder empty tool list. -/
def createMcpTools (env : Env) : Except String (List MCPTool) :=
  if !pyTruthy (env "JIRA_MCP_URL") || !pyTruthy (env "BITBUCKET_MCP_URL") then
    Except.error "JIRA_MCP_URL and BITBUCKET_MCP_URL must be set (no defaults)."
  else Except.ok []

/-- The endpoint checks at the top of `TechLeadCrew.tech_lead_crew` (crew
agent construction): each missing or empty variable raises `ValueError`. -/
def techLeadToolEndpoints (env : Env) : Except String (String × String) :=
  if !pyTruthy (env "JIRA_MCP_URL") then
    Except.error "JIRA_MCP_URL must be set (no default)."
  else if !pyTruthy (env "BITBUCKET_MCP_URL") then
    Except.error "BITBUCKET_MCP_URL must be set (no default)."
  else Except.ok ((env "JIRA_MCP_URL").getD "", (env "BITBUCKET_MCP_URL").getD "")

/-- `process_input`: normalize messages (identity on proper messages), then
extract the issue key from the last message via `re.search(r'([A-Z]+-\d+)')`,
falling back to a full match of the stripped content, else keep a non-empty
pre-existing key or set the empty string. -/
def processInput (st : AgentState) : AgentState :=
  match st.messages.getLast? with
  | none =>
    if st.jira_issue_key = "" then { st with jira_issue_key := "" } else st
  | some m =>
    match findKey m.content.data with
    | some k => { st with jira_issue_key := String.mk k }
    | none =>
      let t := trimList m.content.data
      if fullKeyMatch t then { st with jira_issue_key := String.mk t }
      else if st.jira_issue_key = "" then { st with jira_issue_key := "" } else st

/-- `result_str.strip().startswith('\x7b') or ... .startswith('[')`. -/
def looksJson (s : String) : Bool :=
  let t := String.mk (trimList s.data)
  t.startsWith "\x7b" || t.startsWith "["

/-- `fetch_jira_issue`: no-op on an empty key; otherwise call the Jira tool
(built per call by `create_jira_tools`), JSON-decode string payloads that
look like JSON, and null out `jira_issue` on any failure.  `transport` is
the MCP call (url, issue_key); `parse` is `json.loads` restricted to issue
records (`none` models a decode error). -/
def fetchJiraIssue (env : Env) (transport : String → String → Except String Payload)
    (parse : String → Option IssueRecord) (st : AgentState) : AgentState :=
  if st.jira_issue_key = "" then st
  else
    match createJiraTools env with
    | [] => { st with jira_issue := none }
    | t :: _ =>
      match transport t.mcp_url st.jira_issue_key with
      | Except.error _ => { st with jira_issue := none }
      | Except.ok (Payload.record j) => { st with jira_issue := some j }
      | Except.ok (Payload.text s) =>
        if looksJson s then
          match parse s with
          | some j => { st with jira_issue := some j }
          | none => { st with jira_issue := none }
        else { st with jira_issue := none }

/-- `extract_repo_info`: scan the description, then the url, for the
Bitbucket URL pattern; fall back to the record's `project.key`; assign each
of `workspace`/`repo_slug` only when truthy. -/
def extractRepoInfo (st : AgentState) : AgentState :=
  match st.jira_issue with
  | none => st
  | some j =>
    let description := j.description.getD ""
    let url := j.url.getD ""
    let pair : Option String × Option String :=
      match findBB description.data with
      | some (w, r) => (some w, some r)
      | none =>
        match findBB url.data with
        | some (w, r) => (some w, some r)
        | none =>
          match j.project with
          | some pk => (pk, none)
          | none => (none, none)
    let st1 := if pyTruthy pair.1 then { st with workspace := pair.1 } else st
    if pyTruthy pair.2 then { st1 with repo_slug := pair.2 } else st1

/-- `list_repositories`: no-op without a truthy workspace; otherwise call
the first Bitbucket tool and store the decoded list, nulling on failure. -/
def listRepositoriesStage (env : Env)
    (transport : String → String → Except String (List RepoDesc))
    (st : AgentState) : AgentState :=
  if !pyTruthy st.workspace then st
  else
    match createBitbucketTools env with
    | [] => { st with repo_list := none }
    | t :: _ =>
      match transport t.mcp_url (st.workspace.getD "") with
      | Except.ok l => { st with repo_list := some l }
      | Except.error _ => { st with repo_list := none }

/-- The scan of `list_repo_files` for an entry with `path == "web-store"`
and `type == "directory"`. -/
def isWebStoreDir : FileEntry → Bool
  | FileEntry.dictE p t => p = some "web-store" && t = some "directory"
  | FileEntry.otherE => false

/-- `list_repo_files`: no-op unless both `workspace` and `repo_slug` are
truthy; list the root path, then conditionally the fixed `web-store`
subdirectory; any failure nulls `repo_files`.  Also returns the list of
`path` arguments passed to the tool, to make the number of calls visible.
`transport` is the MCP call (url, workspace, repo_slug, path). -/
def listRepoFiles (env : Env)
    (transport : String → String → String → String → Except String FilesPayload)
    (st : AgentState) : AgentState × List String :=
  if !pyTruthy st.workspace || !pyTruthy st.repo_slug then (st, [])
  else
    let ws := st.workspace.getD ""
    let rs := st.repo_slug.getD ""
    match createBitbucketTools env with
    | _ :: t :: _ =>
      match transport t.mcp_url ws rs "" with
      | Except.error _ => ({ st with repo_files := none }, [""])
      | Except.ok root =>
        let found := match root with
          | FilesPayload.filesDict es => es.any isWebStoreDir
          | FilesPayload.otherShape => false
        if found then
          match transport t.mcp_url ws rs "web-store" with
          | Except.error _ => ({ st with repo_files := none }, ["", "web-store"])
          | Except.ok w =>
            ({ st with repo_files := some ⟨root, some w⟩ }, ["", "web-store"])
        else ({ st with repo_files := some ⟨root, none⟩ }, [""])
    | _ => ({ st with repo_files := none }, [])

/-- Substring test on character lists (case already folded by callers). -/
def listContainsChars (pat : List Char) : List Char → Bool
  | [] => pat.isEmpty
  | c :: cs => pat.isPrefixOf (c :: cs) || listContainsChars pat cs

/-- Lower-case every character (Python `str.lower()`). -/
def lowerChars (l : List Char) : List Char := l.map Char.toLower

/-- The lazy `(.+?)(?:\n\n|\n#|$)` tail of the acceptance-criteria regex:
take characters up to the first blank line or heading line. -/
def takeUntilBreak : List Char → List Char
  | [] => []
  | c :: cs =>
    if ['\n', '\n'].isPrefixOf (c :: cs) || ['\n', '#'].isPrefixOf (c :: cs) then []
    else c :: takeUntilBreak cs

/-- Skip `\s*` after the colon, take the section, strip it. -/
def acceptanceAfter (l : List Char) : List Char :=
  trimList (takeUntilBreak (l.dropWhile Char.isWhitespace))

/-- Scan for the first case-insensitive `acceptance criteria:` or
`acceptance:` label and return the section text after it. -/
def findAcceptance : List Char → Option (List Char)
  | [] => none
  | c :: cs =>
    if "acceptance criteria:".data.isPrefixOf (lowerChars (c :: cs)) then
      some (acceptanceAfter ((c :: cs).drop "acceptance criteria:".length))
    else if "acceptance:".data.isPrefixOf (lowerChars (c :: cs)) then
      some (acceptanceAfter ((c :: cs).drop "acceptance:".length))
    else findAcceptance cs

/-- The acceptance-criteria extraction of `synthesize_output`: best-effort
section match over the description, defaulting to `"See description"`. -/
def extractAcceptanceCriteria (desc : String) : String :=
  let lower := lowerChars desc.data
  if listContainsChars "acceptance criteria".data lower ||
      listContainsChars "acceptance".data lower then
    match findAcceptance desc.data with
    | some s => String.mk s
    | none => "See description"
  else "See description"

/-- Serialization of one file entry for the prompt excerpt, standing in for
`json.dumps` on the stored structure. -/
def renderEntry : FileEntry → String
  | FileEntry.dictE p t => "(" ++ p.getD "" ++ ":" ++ t.getD "" ++ ")"
  | FileEntry.otherE => "(?)"

/-- Serialization of a files payload for the prompt excerpt. -/
def renderPayload : FilesPayload → String
  | FilesPayload.filesDict es =>
    "files: [" ++ String.intercalate ", " (es.map renderEntry) ++ "]"
  | FilesPayload.otherShape => "(unstructured)"

/-- Serialization of the stored `repo_files` mapping for the prompt. -/
def renderRepoFiles (rf : RepoFiles) : String :=
  "root: " ++ renderPayload rf.root ++
    (match rf.web_store with
     | some w => "; web-store: " ++ renderPayload w
     | none => "")

/-- The deterministic prompt assembly of `synthesize_output` (the fixed
section headers and output-format instructions, with the file-structure
excerpt truncated to 2000 characters). -/
def buildPrompt (st : AgentState) : String :=
  let issue_key := st.jira_issue_key
  let issue_summary := match st.jira_issue with
    | some j => j.summary.getD "N/A"
    | none => ""
  let issue_description := match st.jira_issue with
    | some j => j.description.getD "N/A"
    | none => ""
  let issue_status := match st.jira_issue with
    | some j => j.status.getD "N/A"
    | none => ""
  let issue_priority := match st.jira_issue with
    | some j => j.priority.getD "N/A"
    | none => ""
  let issue_assignee := match st.jira_issue with
    | some j => j.assignee.getD "Unassigned"
    | none => ""
  let issue_reporter := match st.jira_issue with
    | some j => match j.reporter with
      | some (dn, em) => dn ++ " (" ++ em ++ ")"
      | none => ""
    | none => ""
  let issue_labels := match st.jira_issue with
    | some j => j.labels.getD []
    | none => []
  let issue_url := match st.jira_issue with
    | some j => j.url.getD ""
    | none => ""
  let project_key := match st.jira_issue with
    | some j =>
      let pk := (j.project.getD none).getD ""
      if pk = "" && issue_key ≠ "" then (issue_key.splitOn "-").headD "" else pk
    | none => ""
  let acceptance_criteria := match st.jira_issue with
    | some j => extractAcceptanceCriteria (j.description.getD "N/A")
    | none => ""
  let repo_context_parts : List String :=
    (if pyTruthy st.workspace then
      ["- Bitbucket Workspace: " ++ st.workspace.getD ""] else []) ++
    (if pyTruthy st.repo_slug then
      ["- Repository: " ++ st.repo_slug.getD ""] else []) ++
    (if issue_url ≠ "" then ["- Linked Repository: " ++ issue_url] else []) ++
    (if project_key ≠ "" then ["- Project Key: " ++ project_key] else [])
  let repo_structure := match st.repo_files with
    | some rf =>
      match rf.web_store with
      | some (FilesPayload.filesDict fl) =>
        let names := (fl.filterMap fun e => match e with
          | FileEntry.dictE p _ => some (p.getD "")
          | FileEntry.otherE => none).take 20
        "Key files in web-store: " ++ String.intercalate ", " (names.take 10)
      | _ => ""
    | none => ""
  let labelsStr :=
    if issue_labels ≠ [] then String.intercalate ", " issue_labels
    else "None specified"
  let parts1 : List String := [
    "You are a Senior Technical Lead and Requirements Architect.",
    "Analyze the Jira issue and extract requirements, then produce a comprehensive implementation specification.",
    "",
    "=== JIRA ISSUE DATA ===",
    "Issue Key: " ++ issue_key,
    "Title: " ++ issue_summary,
    "Status: " ++ issue_status,
    "Priority: " ++ issue_priority,
    "Assignee: " ++ issue_assignee,
    "Reporter: " ++ issue_reporter,
    "Labels: " ++ labelsStr,
    "",
    "Project Information:"] ++ repo_context_parts ++ [
    "",
    "Acceptance Criteria:",
    (if acceptance_criteria ≠ "" then acceptance_criteria else "See description below"),
    "",
    "Description:",
    issue_description,
    "",
    "=== REPOSITORY CONTEXT ==="]
  let parts2 : List String :=
    (if repo_structure ≠ "" then [repo_structure] else []) ++
    (match st.repo_files with
     | some rf => ["\nRepository file structure:", (renderRepoFiles rf).take 2000]
     | none => [])
  let parts3 : List String := [
    "",
    "=== YOUR TASK ===",
    "",
    "You are a Senior Technical Lead and Requirements Architect. Your goal is to analyze Jira tasks and create comprehensive implementation plans.",
    "",
    "Produce output in EXACTLY this format (matching CrewAI output format):",
    "",
    "# Issue Summary",
    "",
    "**Issue Key:** " ++ issue_key,
    "**Title:** " ++ issue_summary,
    "**Status:** " ++ issue_status,
    "**Priority:** " ++ issue_priority,
    "**Assignee:** " ++ issue_assignee,
    "**Reporter:** " ++ issue_reporter,
    "**Labels:** " ++ labelsStr,
    "**Linked Repository:** " ++ (if issue_url ≠ "" then issue_url else "Not specified"),
    "",
    "**Project Information:**",
    "- Project Key: " ++ (if project_key ≠ "" then project_key else "N/A"),
    "- Bitbucket Workspace: " ++
      (if pyTruthy st.workspace then st.workspace.getD "" else "N/A"),
    "- Repository: " ++ (if pyTruthy st.repo_slug then st.repo_slug.getD "" else "N/A"),
    "",
    "**Acceptance Criteria:**",
    (if acceptance_criteria ≠ "" then
      "- " ++ acceptance_criteria.replace "\\n" "\\n- "
     else "See description"),
    "",
    "**Description:**",
    issue_description,
    "",
    "---",
    "",
    "# Implementation Specification",
    "",
    "## Deliverables",
    "",
    "List WHAT needs to be created or modified (not HOW). Be specific about the concrete outputs.",
    "",
    "## Required Functionality",
    "",
    "Describe the specific behaviors, operations, or capabilities that must be implemented. Focus on functional requirements.",
    "",
    "## Input/Output Specifications",
    "",
    "**Inputs:**",
    "List all data inputs, user interactions, or triggers required.",
    "",
    "**Outputs:**",
    "List all expected outputs, responses, or results.",
    "",
    "**Data Requirements:**",
    "Describe the data structures, formats, or data flow requirements.",
    "",
    "## Constraints & Validations",
    "",
    "List all rules, limitations, validation requirements, or constraints that must be followed.",
    "",
    "## Integration Requirements",
    "",
    "Describe external systems, APIs, existing components, or integration points that must be considered.",
    "",
    "## Repository Context",
    "",
    "**Project Type:** [Identify from repository structure - e.g., Frontend Web Application, Backend Service, etc.]",
    "",
    "**Technology Stack Indicators:**",
    "[List technologies identified from repository files - e.g., Next.js, TypeScript, React, etc.]",
    "",
    "**Project Structure:**",
    "[Describe the directory structure and organization]",
    "",
    "**Key Files Present:**",
    "[List important configuration and source files]",
    "",
    "[Provide additional context about the project architecture and patterns]",
    "",
    "CRITICAL INSTRUCTIONS:",
    "- Extract acceptance criteria from the description and list them as bullet points",
    "- Be comprehensive and detailed - this specification will be used by developers",
    "- Focus on WHAT needs to be built, NOT HOW to implement it",
    "- Include all relevant details from the Jira issue",
    "- Analyze the repository structure to provide accurate technology stack and project context",
    "- Do NOT include code examples or implementation details"]
  String.intercalate "\n" (parts1 ++ parts2 ++ parts3)

/-- `synthesize_output`: one LLM call; on success the raw response text
becomes `final_output` verbatim and is appended as an assistant message; on
any exception `final_output` is the literal error string. -/
def synthesizeOutput (llm : String → Except String String) (st : AgentState) :
    AgentState :=
  match llm (buildPrompt st) with
  | Except.ok content =>
    { st with final_output := some content,
              messages := st.messages ++ [Msg.ai content] }
  | Except.error e => { st with final_output := some ("Error: " ++ e) }

/-- The full sequential graph of `build_graph`:
`process_input → fetch_jira → extract_repo → list_repos → list_files →
synthesize`. -/
def runPipeline (env : Env) (jt : String → String → Except String Payload)
    (parse : String → Option IssueRecord)
    (rt : String → String → Except String (List RepoDesc))
    (ft : String → String → String → String → Except String FilesPayload)
    (llm : String → Except String String) (st : AgentState) : AgentState :=
  synthesizeOutput llm
    (listRepoFiles env ft
      (listRepositoriesStage env rt
        (extractRepoInfo
          (fetchJiraIssue env jt parse
            (processInput st))))).1

/-- The CrewAI tool-session state: a counter allocating fresh object
identities, the cached MCP adapter (`_mcp_server_adapter`), and the tool
handles currently installed on the agent. -/
structure ToolSys where
  nextId : Nat := 0
  adapterCache : Option Nat := none
  agentTools : List Nat := []
deriving DecidableEq

/-- `CrewBase.get_mcp_tools()` after the adapter cache was cleared: creates
a fresh adapter and returns `k` brand-new tool instances (fresh ids). -/
def getMcpTools (k : Nat) (s : ToolSys) : List Nat × ToolSys :=
  let ids := (List.range k).map (fun i => s.nextId + i)
  (ids, { s with nextId := s.nextId + k, adapterCache := some s.nextId })

/-- `EventLoopSafeCrew._refresh_agent_tools`: always clear the cached
adapter; when MCP params are configured and `get_mcp_tools` does not fail,
install the fresh tools on the agents; on failure keep the existing tools. -/
def refreshAgentTools (configured : Bool) (fails : Bool) (k : Nat) (s : ToolSys) :
    ToolSys :=
  let s0 := { s with adapterCache := none }
  if configured then
    if fails then s0
    else
      let fresh := getMcpTools k s0
      { fresh.2 with agentTools := fresh.1 }
  else s0

/-- `EventLoopSafeCrew.kickoff`: refresh the tools, then run the crew with
the installed handles (returned here so their identities are observable). -/
def crewKickoff (configured : Bool) (fails : Bool) (k : Nat) (s : ToolSys) :
    List Nat × ToolSys :=
  let s1 := refreshAgentTools configured fails k s
  (s1.agentTools, s1)

/-- The retry loop of `TechLeadCrew.tech_lead_crew` around `get_mcp_tools`
(`max_retries = 3`, `retry_delay = 2`, exponential backoff).  Returns the
outcome, the number of attempts made, and the list of sleep durations. -/
def loadLoop (behavior : Nat → Except String (List Nat)) (retry_delay : Nat) :
    Nat → Nat → Except String (List Nat) × Nat × List Nat
  | 0, _ => (Except.error "unreachable", 0, [])
  | remaining + 1, attempt =>
    match behavior attempt with
    | Except.ok tools => (Except.ok tools, 1, [])
    | Except.error e =>
      if remaining = 0 then
        (Except.error ("Failed to initialize MCP tools after 3 retries. This is required for the agent to function. Last error: " ++ e ++ ". Please check MCP server connectivity and readiness."), 1, [])
      else
        let rest := loadLoop behavior retry_delay remaining (attempt + 1)
        (rest.1, rest.2.1 + 1, retry_delay * 2 ^ attempt :: rest.2.2)

/-- The concrete retry loop with `max_retries = 3` and `retry_delay = 2`. -/
def loadMcpTools (behavior : Nat → Except String (List Nat)) :
    Except String (List Nat) × Nat × List Nat :=
  loadLoop behavior 2 3 0

/-- Declarative reading of the regex `[A-Z]+-\d+`. -/
def isKey (m : List Char) : Prop :=
  ∃ u d, m = u ++ '-' :: d ∧ u ≠ [] ∧ d ≠ [] ∧
    (∀ c ∈ u, c.isUpper = true) ∧ (∀ c ∈ d, c.isDigit = true)

/-- `m` occurs as a key-shaped substring of `l` starting at offset `i`. -/
def keyOccursAt (l : List Char) (i : Nat) (m : List Char) : Prop :=
  ∃ p s, l = p ++ m ++ s ∧ p.length = i ∧ isKey m

/-- Some key-shaped substring occurs in `l`. -/
def hasKey (l : List Char) : Prop := ∃ i m, keyOccursAt l i m

/-- All characters differ from `/` (the `[^/]` class, declaratively). -/
def noSlash (w : List Char) : Prop := ∀ c ∈ w, c ≠ '/'

/-- The Bitbucket URL pattern occurs in `l` with groups `w` and `r`. -/
def bbOccWith (l w r : List Char) : Prop :=
  ∃ p s, l = p ++ bbLit ++ w ++ bbRepos ++ r ++ s ∧
    w ≠ [] ∧ noSlash w ∧ r ≠ [] ∧ noSlash r

/-- The Bitbucket URL pattern occurs somewhere in `l`. -/
def bbOcc (l : List Char) : Prop := ∃ w r, bbOccWith l w r

/-! ## Concrete inputs used by witnesses and counterexamples -/

/-- An environment with every variable unset. -/
def envUnset : Env := fun _ => none

/-- An issue record with empty description and url and no project key. -/
def c3issue : IssueRecord := { description := some "", url := some "" }

/-- State carrying `c3issue` under issue key `ABC-5`. -/
def c3state : AgentState := { jira_issue_key := "ABC-5", jira_issue := some c3issue }

/-- An issue record whose project dict has key `XYZ` and whose description
and url contain no Bitbucket URL. -/
def projIssue : IssueRecord :=
  { description := some "", url := some "", project := some (some "XYZ") }

/-- State carrying `projIssue` under issue key `ABC-5`. -/
def projState : AgentState :=
  { jira_issue_key := "ABC-5", jira_issue := some projIssue }

/-- An issue record whose description contains a repository URL at a host
other than source.app.pconnect.biz. -/
def c7issue : IssueRecord :=
  { description := some "https://host/projects/WS1/repos/REPO1", url := some "" }

/-- State carrying `c7issue`. -/
def c7state : AgentState := { jira_issue := some c7issue }

/-- An issue record whose description contains a Bitbucket URL at the
expected host. -/
def bbDescIssue : IssueRecord :=
  { description :=
      some "See https://source.app.pconnect.biz/projects/WS1/repos/REPO1/browse now" }

/-- State carrying `bbDescIssue`. -/
def bbDescState : AgentState := { jira_issue := some bbDescIssue }

/-- A decoded issue used to observe which endpoint a stage called. -/
def c4record : IssueRecord := { summary := some "Fix login bug" }

/-- A transport that only answers on the defaulted localhost Jira endpoint,
so a successful fetch proves that endpoint was used. -/
def c4transport : String → String → Except String Payload := fun url _ =>
  if url = "http://localhost:3001/mcp" then Except.ok (Payload.record c4record)
  else Except.error "unreachable endpoint"

/-- State with only an issue key set. -/
def c4state : AgentState := { jira_issue_key := "TECBAC-209" }

/-- A root listing containing the `web-store` directory entry. -/
def c8root : List FileEntry := [FileEntry.dictE (some "web-store") (some "directory")]

/-- A file-listing transport: the root path returns `c8root`, any other path
returns an empty listing. -/
def c8ft : String → String → String → String → Except String FilesPayload :=
  fun _ _ _ p =>
    if p = "" then Except.ok (FilesPayload.filesDict c8root)
    else Except.ok (FilesPayload.filesDict [])

/-- State with workspace and repo slug resolved. -/
def c8state : AgentState := { workspace := some "WS1", repo_slug := some "REPO1" }

/-- A message list whose last message mentions two issue keys. -/
def c6state : AgentState :=
  { messages := [Msg.human "see TECBAC-209 and ABC-1 now"] }

/-- State with a pre-existing issue key and a last message with no key. -/
def c10state : AgentState :=
  { messages := [Msg.human "hello there"], jira_issue_key := "ABC-1" }

/-! ## Helper lemmas about takeWhile and dropWhile -/

theorem takeWhile_append_middle (p : Char → Bool) (u : List Char) (c : Char)
    (r : List Char) (hu : ∀ x ∈ u, p x = true) (hc : p c = false) :
    (u ++ c :: r).takeWhile p = u := by
  induction u with
  | nil => simp [List.takeWhile_cons, hc]
  | cons a u ih =>
    have ha : p a = true := hu a (List.mem_cons_self a u)
    simp only [List.cons_append, List.takeWhile_cons, ha, if_true]
    exact congrArg (a :: ·) (ih fun x hx => hu x (List.mem_cons_of_mem a hx))

theorem dropWhile_append_middle (p : Char → Bool) (u : List Char) (c : Char)
    (r : List Char) (hu : ∀ x ∈ u, p x = true) (hc : p c = false) :
    (u ++ c :: r).dropWhile p = c :: r := by
  induction u with
  | nil => simp [List.dropWhile_cons, hc]
  | cons a u ih =>
    have ha : p a = true := hu a (List.mem_cons_self a u)
    simp only [List.cons_append, List.dropWhile_cons, ha, if_true]
    exact ih fun x hx => hu x (List.mem_cons_of_mem a hx)

theorem takeWhile_append_all (p : Char → Bool) (d s : List Char)
    (hd : ∀ x ∈ d, p x = true) :
    (d ++ s).takeWhile p = d ++ s.takeWhile p := by
  induction d with
  | nil => simp
  | cons a d ih =>
    have ha : p a = true := hd a (List.mem_cons_self a d)
    simp only [List.cons_append, List.takeWhile_cons, ha, if_true]
    exact congrArg (a :: ·) (ih fun x hx => hd x (List.mem_cons_of_mem a hx))

theorem trimList_infix (l : List Char) : ∃ p s, l = p ++ trimList l ++ s := by
  have h2 : (l.dropWhile Char.isWhitespace).reverse =
      (l.dropWhile Char.isWhitespace).reverse.takeWhile Char.isWhitespace ++
        (l.dropWhile Char.isWhitespace).reverse.dropWhile Char.isWhitespace :=
    (List.takeWhile_append_dropWhile _ _).symm
  have h3 : l.dropWhile Char.isWhitespace =
      trimList l ++
        ((l.dropWhile Char.isWhitespace).reverse.takeWhile Char.isWhitespace).reverse := by
    have h4 := congrArg List.reverse h2
    rw [List.reverse_reverse, List.reverse_append] at h4
    exact h4
  refine ⟨l.takeWhile Char.isWhitespace,
    ((l.dropWhile Char.isWhitespace).reverse.takeWhile Char.isWhitespace).reverse, ?_⟩
  conv_lhs => rw [← List.takeWhile_append_dropWhile Char.isWhitespace l, h3]
  rw [List.append_assoc]

/-! ## Correctness of the issue-key regex embedding -/

theorem matchAt_sound {l m : List Char} (h : matchAt l = some m) :
    (∃ s, l = m ++ s) ∧ isKey m ∧
      ∀ m' s', l = m' ++ s' → isKey m' → m'.length ≤ m.length := by
  unfold matchAt at h
  split at h
  · cases h
  next hu =>
    split at h
    · cases h
    next c r2 hr =>
      split at h
      case isFalse => cases h
      next hc =>
        split at h
        · cases h
        next hd =>
          have hm : m = l.takeWhile Char.isUpper ++ c :: r2.takeWhile Char.isDigit :=
            (Option.some.inj h).symm
          subst hc
          have hl : l = l.takeWhile Char.isUpper ++ '-' :: r2 := by
            conv_lhs => rw [← List.takeWhile_append_dropWhile Char.isUpper l]
            rw [hr]
          have hr2 : r2 = r2.takeWhile Char.isDigit ++ r2.dropWhile Char.isDigit :=
            (List.takeWhile_append_dropWhile _ _).symm
          refine ⟨⟨r2.dropWhile Char.isDigit, ?_⟩, ?_, ?_⟩
          · rw [hm]
            conv_lhs => rw [hl, hr2]
            simp [List.append_assoc]
          · exact ⟨l.takeWhile Char.isUpper, r2.takeWhile Char.isDigit, hm, hu, hd,
              fun x hx => List.mem_takeWhile_imp hx,
              fun x hx => List.mem_takeWhile_imp hx⟩
          · rintro m' s' hls ⟨u', d', rfl, hu', hd', hup', hdig'⟩
            have hls' : l = u' ++ '-' :: (d' ++ s') := by
              rw [hls]; simp [List.append_assoc]
            have htw : l.takeWhile Char.isUpper = u' := by
              rw [hls']
              exact takeWhile_append_middle _ u' '-' _ hup' (by decide)
            have hdw : l.dropWhile Char.isUpper = '-' :: (d' ++ s') := by
              rw [hls']
              exact dropWhile_append_middle _ u' '-' _ hup' (by decide)
            have hr2' : r2 = d' ++ s' := by
              have h12 := hr.symm.trans hdw
              exact (List.cons.injEq _ _ _ _ ▸ h12).2
            have hlen : d'.length ≤ (r2.takeWhile Char.isDigit).length := by
              rw [hr2', takeWhile_append_all _ d' s' hdig']
              simp
            rw [hm]
            simp only [List.length_append, List.length_cons, htw]
            omega

theorem matchAt_complete {l m s : List Char} (hl : l = m ++ s) (hk : isKey m) :
    ∃ m', matchAt l = some m' := by
  obtain ⟨u, d, rfl, hu, hd, hup, hdig⟩ := hk
  have hl' : l = u ++ '-' :: (d ++ s) := by rw [hl]; simp [List.append_assoc]
  have htw : l.takeWhile Char.isUpper = u := by
    rw [hl']; exact takeWhile_append_middle _ u '-' _ hup (by decide)
  have hdw : l.dropWhile Char.isUpper = '-' :: (d ++ s) := by
    rw [hl']; exact dropWhile_append_middle _ u '-' _ hup (by decide)
  have hdtw : (d ++ s).takeWhile Char.isDigit = d ++ s.takeWhile Char.isDigit :=
    takeWhile_append_all _ d s hdig
  have hdne : ¬(d ++ s).takeWhile Char.isDigit = [] := by
    rw [hdtw]
    intro hemp
    exact hd (List.append_eq_nil.mp hemp).1
  refine ⟨u ++ '-' :: (d ++ s).takeWhile Char.isDigit, ?_⟩
  unfold matchAt
  rw [htw, if_neg hu, hdw]
  show (if '-' = '-' then _ else none) = _
  rw [if_pos rfl, if_neg hdne]

theorem findKey_sound {l m : List Char} (h : findKey l = some m) :
    ∃ i, keyOccursAt l i m ∧ (∀ j m', keyOccursAt l j m' → i ≤ j) ∧
      ∀ m', keyOccursAt l i m' → m'.length ≤ m.length := by
  induction l with
  | nil => cases h
  | cons c cs ih =>
    unfold findKey at h
    split at h
    next m0 hm =>
      obtain rfl : m0 = m := Option.some.inj h
      obtain ⟨⟨s, hs⟩, hk, hmax⟩ := matchAt_sound hm
      refine ⟨0, ⟨[], s, by simpa using hs, rfl, hk⟩, fun j m' _ => Nat.zero_le j, ?_⟩
      rintro m' ⟨p, s', hls, hp, hk'⟩
      have hp0 : p = [] := List.length_eq_zero.mp hp
      subst hp0
      exact hmax m' s' (by simpa using hls) hk'
    next hm =>
      obtain ⟨i, ⟨p, s, hls, hp, hk⟩, hmin, hlong⟩ := ih h
      refine ⟨i + 1, ⟨c :: p, s, by simp [hls], by simp [hp], hk⟩, ?_, ?_⟩
      · rintro j m' ⟨p', s', hls', hp', hk'⟩
        cases p' with
        | nil =>
          exfalso
          obtain ⟨m'', hm''⟩ := matchAt_complete (by simpa using hls') hk'
          rw [hm] at hm''
          cases hm''
        | cons a p'' =>
          have hcs : cs = p'' ++ m' ++ s' := by
            have h0 := hls'
            simp only [List.cons_append, List.cons.injEq] at h0
            exact h0.2
          have : i ≤ p''.length := hmin p''.length m' ⟨p'', s', hcs, rfl, hk'⟩
          simp only [List.length_cons] at hp'
          omega
      · rintro m' ⟨p', s', hls', hp', hk'⟩
        cases p' with
        | nil => simp at hp'
        | cons a p'' =>
          have hcs : cs = p'' ++ m' ++ s' := by
            have h0 := hls'
            simp only [List.cons_append, List.cons.injEq] at h0
            exact h0.2
          have hp'' : p''.length = i := by
            simp only [List.length_cons] at hp'
            omega
          exact hlong m' ⟨p'', s', hcs, hp'', hk'⟩

theorem findKey_complete {l : List Char} (h : hasKey l) :
    ∃ m, findKey l = some m := by
  induction l with
  | nil =>
    exfalso
    obtain ⟨i, m, p, s, hls, hp, hk⟩ := h
    obtain ⟨u, d, rfl, hu, _, _, _⟩ := hk
    have h1 := List.append_eq_nil.mp hls.symm
    have h2 := List.append_eq_nil.mp h1.1
    exact absurd h2.2 (by simp [hu])
  | cons c cs ih =>
    obtain ⟨i, m, p, s, hls, hp, hk⟩ := h
    cases hm : matchAt (c :: cs) with
    | some m0 =>
      refine ⟨m0, ?_⟩
      unfold findKey
      rw [hm]
    | none =>
      cases p with
      | nil =>
        exfalso
        obtain ⟨m'', hm''⟩ := matchAt_complete (l := c :: cs) (by simpa using hls) hk
        rw [hm] at hm''
        cases hm''
      | cons a p' =>
        have hcs : cs = p' ++ m ++ s := by
          have h0 := hls
          simp only [List.cons_append, List.cons.injEq] at h0
          exact h0.2
        obtain ⟨m', hm'⟩ := ih ⟨p'.length, m, p', s, hcs, rfl, hk⟩
        refine ⟨m', ?_⟩
        unfold findKey
        rw [hm, hm']

theorem fullKeyMatch_isKey {l : List Char} (h : fullKeyMatch l = true) : isKey l := by
  unfold fullKeyMatch at h
  split at h
  case h_2 => cases h
  next c r2 hr =>
    simp only [Bool.and_eq_true, Bool.not_eq_true', List.isEmpty_iff,
      decide_eq_true_eq, List.all_eq_true] at h
    obtain ⟨⟨⟨hne, hc⟩, hr2ne⟩, hall⟩ := h
    subst hc
    have hne' : l.takeWhile Char.isUpper ≠ [] := by
      intro hx
      rw [hx] at hne
      simp at hne
    have hr2ne' : r2 ≠ [] := by
      intro hx
      rw [hx] at hr2ne
      simp at hr2ne
    have hl : l = l.takeWhile Char.isUpper ++ '-' :: r2 := by
      conv_lhs => rw [← List.takeWhile_append_dropWhile Char.isUpper l]
      rw [hr]
    exact ⟨l.takeWhile Char.isUpper, r2, hl, hne', hr2ne',
      fun x hx => List.mem_takeWhile_imp hx, hall⟩

/-! ## Correctness of the Bitbucket URL regex embedding -/

theorem isPrefixOf_decomp {a l : List Char} (h : a.isPrefixOf l = true) :
    l = a ++ l.drop a.length := by
  obtain ⟨t, ht⟩ := List.isPrefixOf_iff_prefix.mp h
  rw [← ht, List.drop_left]

theorem append_isPrefixOf (a t : List Char) : a.isPrefixOf (a ++ t) = true :=
  List.isPrefixOf_iff_prefix.mpr ⟨t, rfl⟩

theorem noSlash_all {w : List Char} (h : noSlash w) : ∀ c ∈ w, notSlash c = true :=
  fun c hc => by simpa [notSlash] using h c hc

theorem all_noSlash {w : List Char} (h : ∀ c ∈ w, notSlash c = true) : noSlash w :=
  fun c hc => by simpa [notSlash] using h c hc

theorem matchBB_sound {l : List Char} {w r : String} (h : matchBBAt l = some (w, r)) :
    bbOccWith l w.data r.data := by
  unfold matchBBAt at h
  split at h
  case isFalse => cases h
  next h1 =>
    split at h
    · cases h
    next h2 =>
      split at h
      case isFalse => cases h
      next h3 =>
        split at h
        · cases h
        next h4 =>
          have hpair := Option.some.inj h
          have hw0 : String.mk ((l.drop bbLit.length).takeWhile notSlash) = w :=
            congrArg Prod.fst hpair
          have hr0 : String.mk ((((l.drop bbLit.length).dropWhile notSlash).drop
              bbRepos.length).takeWhile notSlash) = r :=
            congrArg Prod.snd hpair
          have hw : w.data = (l.drop bbLit.length).takeWhile notSlash := by
            rw [← hw0]
          have hrr : r.data =
              (((l.drop bbLit.length).dropWhile notSlash).drop
                bbRepos.length).takeWhile notSlash := by
            rw [← hr0]
          have hd1 : l = bbLit ++ l.drop bbLit.length := isPrefixOf_decomp h1
          have hd2 : l.drop bbLit.length =
              (l.drop bbLit.length).takeWhile notSlash ++
                (l.drop bbLit.length).dropWhile notSlash :=
            (List.takeWhile_append_dropWhile _ _).symm
          have hd3 : (l.drop bbLit.length).dropWhile notSlash =
              bbRepos ++ ((l.drop bbLit.length).dropWhile notSlash).drop bbRepos.length :=
            isPrefixOf_decomp h3
          have hd4 : ((l.drop bbLit.length).dropWhile notSlash).drop bbRepos.length =
              (((l.drop bbLit.length).dropWhile notSlash).drop
                  bbRepos.length).takeWhile notSlash ++
                (((l.drop bbLit.length).dropWhile notSlash).drop
                  bbRepos.length).dropWhile notSlash :=
            (List.takeWhile_append_dropWhile _ _).symm
          refine ⟨[], (((l.drop bbLit.length).dropWhile notSlash).drop
              bbRepos.length).dropWhile notSlash, ?_, ?_, ?_, ?_, ?_⟩
          · rw [hw, hrr]
            conv_lhs => rw [hd1, hd2, hd3, hd4]
            simp [List.append_assoc]
          · rw [hw]; exact h2
          · rw [hw]; exact all_noSlash fun c hc => List.mem_takeWhile_imp hc
          · rw [hrr]; exact h4
          · rw [hrr]; exact all_noSlash fun c hc => List.mem_takeWhile_imp hc

theorem bbRepos_cons : bbRepos = '/' :: "repos/".data := rfl

theorem matchBB_complete {l w r s' : List Char}
    (hl : l = bbLit ++ w ++ bbRepos ++ r ++ s') (hw : w ≠ []) (hnw : noSlash w)
    (hr : r ≠ []) (hnr : noSlash r) : ∃ x, matchBBAt l = some x := by
  have hl' : l = bbLit ++ (w ++ ('/' :: ("repos/".data ++ (r ++ s')))) := by
    rw [hl, bbRepos_cons]
    simp [List.append_assoc]
  have hdrop : l.drop bbLit.length = w ++ ('/' :: ("repos/".data ++ (r ++ s'))) := by
    rw [hl', List.drop_left]
  have htw : (l.drop bbLit.length).takeWhile notSlash = w := by
    rw [hdrop]
    exact takeWhile_append_middle _ w '/' _ (noSlash_all hnw) (by decide)
  have hdw : (l.drop bbLit.length).dropWhile notSlash =
      '/' :: ("repos/".data ++ (r ++ s')) := by
    rw [hdrop]
    exact dropWhile_append_middle _ w '/' _ (noSlash_all hnw) (by decide)
  have hdw' : (l.drop bbLit.length).dropWhile notSlash = bbRepos ++ (r ++ s') := by
    rw [hdw, bbRepos_cons]
    simp [List.append_assoc]
  have h3 : bbRepos.isPrefixOf ((l.drop bbLit.length).dropWhile notSlash) = true := by
    rw [hdw']
    exact append_isPrefixOf _ _
  have htl : ((l.drop bbLit.length).dropWhile notSlash).drop bbRepos.length =
      r ++ s' := by
    rw [hdw', List.drop_left]
  have hslne : ¬(((l.drop bbLit.length).dropWhile notSlash).drop
      bbRepos.length).takeWhile notSlash = [] := by
    rw [htl]
    cases r with
    | nil => exact absurd rfl hr
    | cons r0 rr =>
      have hns : notSlash r0 = true :=
        noSlash_all hnr r0 (List.mem_cons_self r0 rr)
      simp [List.takeWhile_cons, hns]
  have h1' : bbLit.isPrefixOf l = true := by
    rw [hl']
    exact append_isPrefixOf _ _
  have h2' : ¬(l.drop bbLit.length).takeWhile notSlash = [] := by
    rw [htw]
    exact hw
  have hmain : matchBBAt l =
      some (String.mk ((l.drop bbLit.length).takeWhile notSlash),
        String.mk ((((l.drop bbLit.length).dropWhile notSlash).drop
          bbRepos.length).takeWhile notSlash)) := by
    unfold matchBBAt
    rw [if_pos h1', if_neg h2', if_pos h3, if_neg hslne]
  exact ⟨_, hmain⟩

theorem findBB_sound {l : List Char} {w r : String} (h : findBB l = some (w, r)) :
    bbOccWith l w.data r.data := by
  induction l with
  | nil => cases h
  | cons c cs ih =>
    unfold findBB at h
    split at h
    next x hm =>
      obtain rfl : x = (w, r) := Option.some.inj h
      exact matchBB_sound hm
    next hm =>
      obtain ⟨p, s, hls, hw, hnw, hr, hnr⟩ := ih h
      exact ⟨c :: p, s, by simp [hls], hw, hnw, hr, hnr⟩

theorem findBB_complete_aux {w r : List Char} (hw : w ≠ []) (hnw : noSlash w)
    (hr : r ≠ []) (hnr : noSlash r) :
    ∀ (p : List Char) (l s : List Char), l = p ++ bbLit ++ w ++ bbRepos ++ r ++ s →
      ∃ x, findBB l = some x := by
  intro p
  induction p with
  | nil =>
    intro l s hl
    have hl0 : l = bbLit ++ w ++ bbRepos ++ r ++ s := by simpa using hl
    cases l with
    | nil =>
      exfalso
      have : bbLit ++ w ++ bbRepos ++ r ++ s = [] := hl0.symm
      simp [bbLit] at this
    | cons c cs =>
      obtain ⟨x, hx⟩ := matchBB_complete hl0 hw hnw hr hnr
      refine ⟨x, ?_⟩
      unfold findBB
      rw [hx]
  | cons a p' ih =>
    intro l s hl
    cases l with
    | nil =>
      exfalso
      have h0 := hl.symm
      simp at h0
    | cons c cs =>
      have hcs : cs = p' ++ bbLit ++ w ++ bbRepos ++ r ++ s := by
        have h0 := hl
        simp only [List.cons_append, List.append_assoc, List.cons.injEq] at h0 ⊢
        simp [h0.2]
      obtain ⟨x, hx⟩ := ih cs s hcs
      cases hm : matchBBAt (c :: cs) with
      | some y =>
        refine ⟨y, ?_⟩
        unfold findBB
        rw [hm]
      | none =>
        refine ⟨x, ?_⟩
        unfold findBB
        rw [hm, hx]

theorem findBB_complete {l : List Char} (h : bbOcc l) : ∃ x, findBB l = some x := by
  obtain ⟨w, r, p, s, hl, hw, hnw, hr, hnr⟩ := h
  exact findBB_complete_aux hw hnw hr hnr p l s hl

theorem findBB_none_of_not_occ {l : List Char} (h : ¬ bbOcc l) : findBB l = none := by
  cases hf : findBB l with
  | none => rfl
  | some x =>
    exfalso
    obtain ⟨w, r⟩ := x
    exact h ⟨w.data, r.data, findBB_sound hf⟩

/-! ## Bridging helper lemmas -/

theorem findKey_none_of_not_hasKey {l : List Char} (h : ¬ hasKey l) :
    findKey l = none := by
  cases hf : findKey l with
  | none => rfl
  | some m =>
    exfalso
    obtain ⟨i, hoc, _, _⟩ := findKey_sound hf
    exact h ⟨i, m, hoc⟩

theorem fullKeyMatch_trim_false {l : List Char} (h : ¬ hasKey l) :
    fullKeyMatch (trimList l) = false := by
  cases hf : fullKeyMatch (trimList l) with
  | false => rfl
  | true =>
    exfalso
    have hk := fullKeyMatch_isKey hf
    obtain ⟨p, s, hps⟩ := trimList_infix l
    exact h ⟨p.length, trimList l, p, s, hps, rfl, hk⟩

theorem not_bbOcc_of_findBB_none {l : List Char} (h : findBB l = none) :
    ¬ bbOcc l := by
  intro hocc
  obtain ⟨x, hx⟩ := findBB_complete hocc
  rw [h] at hx
  exact Option.noConfusion hx

theorem synthesizeOutput_isSome (llm : String → Except String String)
    (st : AgentState) : (synthesizeOutput llm st).final_output.isSome = true := by
  unfold synthesizeOutput
  cases h : llm (buildPrompt st) <;> simp

/-! ## Claim theorems -/

/-- Claim C1: before every kickoff (not only the first), the wrapper clears
the cached MCP adapter and reinstalls freshly created tool handles, so for
any two consecutive runs with configured MCP params and no transport
failure, the second run's handle identities are disjoint from — hence not
identical to — the first run's. -/
theorem spec_C1_pre_run_refresh (s : ToolSys) (k : Nat) (hk : k ≠ 0) :
    (∀ t ∈ (crewKickoff true false k (crewKickoff true false k s).2).1,
        t ∉ (crewKickoff true false k s).1) ∧
      (crewKickoff true false k (crewKickoff true false k s).2).1 ≠
        (crewKickoff true false k s).1 := by
  have hdisj : ∀ t ∈ (crewKickoff true false k (crewKickoff true false k s).2).1,
      t ∉ (crewKickoff true false k s).1 := by
    intro t ht ht1
    simp only [crewKickoff, refreshAgentTools, getMcpTools, if_pos, if_true,
      Bool.false_eq_true, if_false, List.mem_map, List.mem_range] at ht ht1
    obtain ⟨i, hik, hti⟩ := ht
    obtain ⟨j, hjk, htj⟩ := ht1
    omega
  refine ⟨hdisj, fun heq => ?_⟩
  have h1 : s.nextId + k ∈ (crewKickoff true false k (crewKickoff true false k s).2).1 := by
    simp only [crewKickoff, refreshAgentTools, getMcpTools, if_pos, if_true,
      Bool.false_eq_true, if_false, List.mem_map, List.mem_range]
    exact ⟨0, by omega, by omega⟩
  exact hdisj _ h1 (heq ▸ h1)

/-- Witness for C1 at a concrete initial state and tool count. -/
theorem spec_C1_pre_run_refresh_witness :
    (∀ t ∈ (crewKickoff true false 2 (crewKickoff true false 2 ⟨0, none, []⟩).2).1,
        t ∉ (crewKickoff true false 2 ⟨0, none, []⟩).1) ∧
      (crewKickoff true false 2 (crewKickoff true false 2 ⟨0, none, []⟩).2).1 ≠
        (crewKickoff true false 2 ⟨0, none, []⟩).1 :=
  spec_C1_pre_run_refresh ⟨0, none, []⟩ 2 (by decide)

/-- Claim C2: when every creation attempt fails, handle establishment makes
exactly 3 attempts, sleeps 2s after the first failure and 4s after the
second, and raises a fatal error after the third failure instead of making
a fourth attempt. -/
theorem spec_C2_retry_policy (behavior : Nat → Except String (List Nat))
    (h : ∀ i, i < 3 → ∃ e, behavior i = Except.error e) :
    (loadMcpTools behavior).2.1 = 3 ∧ (loadMcpTools behavior).2.2 = [2, 4] ∧
      ∃ msg, (loadMcpTools behavior).1 = Except.error msg := by
  obtain ⟨e0, h0⟩ := h 0 (by omega)
  obtain ⟨e1, h1⟩ := h 1 (by omega)
  obtain ⟨e2, h2⟩ := h 2 (by omega)
  unfold loadMcpTools
  simp only [loadLoop, h0, h1, h2]
  norm_num

/-- Witness for C2 with an always-failing creation behavior. -/
theorem spec_C2_retry_policy_witness :
    (loadMcpTools fun _ => Except.error "connection refused").2.1 = 3 ∧
      (loadMcpTools fun _ => Except.error "connection refused").2.2 = [2, 4] ∧
      ∃ msg, (loadMcpTools fun _ => Except.error "connection refused").1 =
        Except.error msg :=
  spec_C2_retry_policy (fun _ => Except.error "connection refused")
    (fun _ _ => ⟨"connection refused", rfl⟩)

/-- Claim C3 counterexample: for an issue record with no Bitbucket URL in
description or url and no project key, under issue key `ABC-5`,
`extract_repo_info` leaves `workspace` unset instead of deriving `ABC` from
the issue key. -/
theorem spec_C3_counterexample :
    c3state.jira_issue_key = "ABC-5" ∧
      (extractRepoInfo c3state).workspace = none ∧
      (extractRepoInfo c3state).workspace ≠ some "ABC" := by
  decide

/-- Claim C3 amended: when the description and url contain no Bitbucket URL,
the fallback sets `workspace` from the record's own `project.key` field
(when present as a dict with a truthy key), leaving `repo_slug` unchanged;
with no usable project key the state is returned unchanged — the issue-key
prefix is never consulted. -/
theorem spec_C3_project_key_fallback (st : AgentState) (j : IssueRecord)
    (hj : st.jira_issue = some j)
    (hd : ¬ bbOcc (j.description.getD "").data)
    (hu : ¬ bbOcc (j.url.getD "").data) :
    (∀ pk, j.project = some (some pk) → pk ≠ "" →
      extractRepoInfo st = { st with workspace := some pk }) ∧
    ((j.project = none ∨ j.project = some none ∨ j.project = some (some "")) →
      extractRepoInfo st = st) := by
  have hfd := findBB_none_of_not_occ hd
  have hfu := findBB_none_of_not_occ hu
  constructor
  · intro pk hpk hne
    simp [extractRepoInfo, hj, hfd, hfu, hpk, pyTruthy, hne]
  · rintro (hpk | hpk | hpk) <;> simp [extractRepoInfo, hj, hfd, hfu, hpk, pyTruthy]

/-- Witness for the amended C3 at a record whose project key is `XYZ`. -/
theorem spec_C3_project_key_fallback_witness :
    extractRepoInfo projState = { projState with workspace := some "XYZ" } :=
  (spec_C3_project_key_fallback projState projIssue rfl
    (not_bbOcc_of_findBB_none (by decide))
    (not_bbOcc_of_findBB_none (by decide))).1 "XYZ" rfl (by decide)

/-- Claim C4 counterexample: with both endpoint variables unset, the tool
factories the stages actually call do not raise any configuration error but
silently default to localhost, and `fetch_jira_issue` then invokes the Jira
tool against the defaulted endpoint (the transport only answers on that
endpoint, and the fetch succeeds). -/
theorem spec_C4_counterexample :
    createJiraTools envUnset = [⟨"http://localhost:3001/mcp", "jira_get_issue",
      "jira_get_issue", "Retrieve a Jira issue by key"⟩] ∧
      (fetchJiraIssue envUnset c4transport (fun _ => none) c4state).jira_issue =
        some c4record := by
  constructor
  · rfl
  · rfl

/-- Claim C4 amended: the crew agent construction and `graph.create_mcp_tools`
raise a fatal configuration error when either endpoint variable is missing or
empty; but the mcp_tools factories used by the langgraph stages silently
default a missing endpoint to a localhost URL. -/
theorem spec_C4_endpoint_config (env : Env)
    (h : pyTruthy (env "JIRA_MCP_URL") = false ∨
      pyTruthy (env "BITBUCKET_MCP_URL") = false) :
    (∃ e, createMcpTools env = Except.error e) ∧
    (∃ e, techLeadToolEndpoints env = Except.error e) ∧
    (env "JIRA_MCP_URL" = none →
      (createJiraTools env).map MCPTool.mcp_url = ["http://localhost:3001/mcp"]) ∧
    (env "BITBUCKET_MCP_URL" = none →
      (createBitbucketTools env).map MCPTool.mcp_url =
        ["http://localhost:3000/mcp", "http://localhost:3000/mcp"]) := by
  refine ⟨?_, ?_, ?_, ?_⟩
  · refine ⟨"JIRA_MCP_URL and BITBUCKET_MCP_URL must be set (no defaults).", ?_⟩
    rcases h with h | h <;> simp [createMcpTools, h]
  · rcases h with h | h
    · exact ⟨"JIRA_MCP_URL must be set (no default).",
        by simp [techLeadToolEndpoints, h]⟩
    · cases hjv : pyTruthy (env "JIRA_MCP_URL") with
      | false => exact ⟨"JIRA_MCP_URL must be set (no default).",
          by simp [techLeadToolEndpoints, hjv]⟩
      | true => exact ⟨"BITBUCKET_MCP_URL must be set (no default).",
          by simp [techLeadToolEndpoints, hjv, h]⟩
  · intro hj
    simp [createJiraTools, jiraMcpUrl, hj]
  · intro hb
    simp [createBitbucketTools, bitbucketMcpUrl, hb]

/-- Witness for the amended C4 with every variable unset. -/
theorem spec_C4_endpoint_config_witness :
    (∃ e, createMcpTools envUnset = Except.error e) ∧
    (∃ e, techLeadToolEndpoints envUnset = Except.error e) ∧
    (envUnset "JIRA_MCP_URL" = none →
      (createJiraTools envUnset).map MCPTool.mcp_url = ["http://localhost:3001/mcp"]) ∧
    (envUnset "BITBUCKET_MCP_URL" = none →
      (createBitbucketTools envUnset).map MCPTool.mcp_url =
        ["http://localhost:3000/mcp", "http://localhost:3000/mcp"]) :=
  spec_C4_endpoint_config envUnset (Or.inl rfl)

/-- Claim C5: each data-gathering stage with its required input missing
returns the state unchanged; the composed pipeline still runs synthesize
and always yields a final output string, whatever the initial input and
however the tools and the LLM behave. -/
theorem spec_C5_degraded_run (env : Env) (jt : String → String → Except String Payload)
    (parse : String → Option IssueRecord)
    (rt : String → String → Except String (List RepoDesc))
    (ft : String → String → String → String → Except String FilesPayload)
    (llm : String → Except String String) (st : AgentState) :
    (st.jira_issue_key = "" → fetchJiraIssue env jt parse st = st) ∧
    (st.jira_issue = none → extractRepoInfo st = st) ∧
    (pyTruthy st.workspace = false → listRepositoriesStage env rt st = st) ∧
    (pyTruthy st.workspace = false ∨ pyTruthy st.repo_slug = false →
      (listRepoFiles env ft st).1 = st) ∧
    (runPipeline env jt parse rt ft llm st).final_output.isSome = true := by
  refine ⟨?_, ?_, ?_, ?_, synthesizeOutput_isSome llm _⟩
  · intro h
    simp [fetchJiraIssue, h]
  · intro h
    simp [extractRepoInfo, h]
  · intro h
    simp [listRepositoriesStage, h]
  · rintro (h | h) <;> simp [listRepoFiles, h]

/-- Witness for C5 at the empty initial state with failing tools. -/
theorem spec_C5_degraded_run_witness :
    (fetchJiraIssue envUnset (fun _ _ => Except.error "down") (fun _ => none)
        {} = {}) ∧
      (runPipeline envUnset (fun _ _ => Except.error "down") (fun _ => none)
          (fun _ _ => Except.error "down") (fun _ _ _ _ => Except.error "down")
          (fun _ => Except.ok "spec text") {}).final_output.isSome = true :=
  ⟨(spec_C5_degraded_run envUnset (fun _ _ => Except.error "down") (fun _ => none)
      (fun _ _ => Except.error "down") (fun _ _ _ _ => Except.error "down")
      (fun _ => Except.ok "spec text") {}).1 rfl,
   (spec_C5_degraded_run envUnset (fun _ _ => Except.error "down") (fun _ => none)
      (fun _ _ => Except.error "down") (fun _ _ _ _ => Except.error "down")
      (fun _ => Except.ok "spec text") {}).2.2.2.2⟩

/-- Claim C6: with no pre-existing key, process_input stores the first
(leftmost, and longest at that position) substring of the last message
matching the issue-key pattern when one occurs, and stores the empty string
exactly when no such substring occurs (the full-trimmed-match branch is
subsumed, since a full match of the stripped text is itself an occurrence). -/
theorem spec_C6_first_key_match (st : AgentState) (m : Msg)
    (hm : st.messages.getLast? = some m) (hk : st.jira_issue_key = "") :
    (hasKey m.content.data →
      ∃ i km, keyOccursAt m.content.data i km ∧
        (processInput st).jira_issue_key = String.mk km ∧
        (∀ j km', keyOccursAt m.content.data j km' → i ≤ j) ∧
        (∀ km', keyOccursAt m.content.data i km' → km'.length ≤ km.length)) ∧
    (¬ hasKey m.content.data → (processInput st).jira_issue_key = "") := by
  constructor
  · intro hocc
    obtain ⟨km, hkm⟩ := findKey_complete hocc
    obtain ⟨i, hoc, hmin, hlong⟩ := findKey_sound hkm
    refine ⟨i, km, hoc, ?_, hmin, hlong⟩
    simp [processInput, hm, hkm]
  · intro hno
    have hfk := findKey_none_of_not_hasKey hno
    have hfull := fullKeyMatch_trim_false hno
    simp [processInput, hm, hfk, hfull, hk]

/-- Witness for C6 on a message containing two issue keys. -/
theorem spec_C6_first_key_match_witness :
    ∃ i km, keyOccursAt "see TECBAC-209 and ABC-1 now".data i km ∧
      (processInput c6state).jira_issue_key = String.mk km ∧
      (∀ j km', keyOccursAt "see TECBAC-209 and ABC-1 now".data j km' → i ≤ j) ∧
      (∀ km', keyOccursAt "see TECBAC-209 and ABC-1 now".data i km' →
        km'.length ≤ km.length) :=
  (spec_C6_first_key_match c6state (Msg.human "see TECBAC-209 and ABC-1 now")
      rfl rfl).1
    ⟨4, "TECBAC-209".data, "see ".data, " and ABC-1 now".data, by decide, by decide,
      "TECBAC".data, "209".data, by decide, by decide, by decide, by decide, by decide⟩

/-- Claim C7 counterexample: a description containing
`https://host/projects/WS1/repos/REPO1` (host literally `host`) does not set
`workspace`/`repo_slug`, because the pattern is anchored to the fixed host
source.app.pconnect.biz. -/
theorem spec_C7_counterexample :
    c7issue.description = some "https://host/projects/WS1/repos/REPO1" ∧
      (extractRepoInfo c7state).workspace = none ∧
      (extractRepoInfo c7state).repo_slug = none := by
  decide

/-- Claim C7 amended: restricted to URLs at the fixed host
source.app.pconnect.biz, the record's description is scanned before its url;
a description match sets both `workspace` and `repo_slug` (and the url field
is then irrelevant); with no description match, a url match sets both. -/
theorem spec_C7_description_first (st : AgentState) (j : IssueRecord)
    (hj : st.jira_issue = some j) :
    (bbOcc (j.description.getD "").data →
      ∃ w r, findBB (j.description.getD "").data = some (w, r) ∧
        bbOccWith (j.description.getD "").data w.data r.data ∧
        (extractRepoInfo st).workspace = some w ∧
        (extractRepoInfo st).repo_slug = some r ∧
        ∀ u', (extractRepoInfo
            { st with jira_issue := some { j with url := u' } }).workspace = some w ∧
          (extractRepoInfo
            { st with jira_issue := some { j with url := u' } }).repo_slug = some r) ∧
    (¬ bbOcc (j.description.getD "").data → bbOcc (j.url.getD "").data →
      ∃ w r, findBB (j.url.getD "").data = some (w, r) ∧
        bbOccWith (j.url.getD "").data w.data r.data ∧
        (extractRepoInfo st).workspace = some w ∧
        (extractRepoInfo st).repo_slug = some r) := by
  constructor
  · intro hocc
    obtain ⟨x, hx⟩ := findBB_complete hocc
    obtain ⟨w, r⟩ := x
    have hsound := findBB_sound hx
    obtain ⟨p, s, _, hwne, _, hrne, _⟩ := hsound
    have hw : w ≠ "" := fun he => hwne (by rw [he])
    have hr : r ≠ "" := fun he => hrne (by rw [he])
    refine ⟨w, r, hx, findBB_sound hx, ?_, ?_, ?_⟩
    · simp [extractRepoInfo, hj, hx, pyTruthy, hw, hr]
    · simp [extractRepoInfo, hj, hx, pyTruthy, hw, hr]
    · intro u'
      constructor
      · simp [extractRepoInfo, hx, pyTruthy, hw, hr]
      · simp [extractRepoInfo, hx, pyTruthy, hw, hr]
  · intro hnd hocc
    have hfd := findBB_none_of_not_occ hnd
    obtain ⟨x, hx⟩ := findBB_complete hocc
    obtain ⟨w, r⟩ := x
    have hsound := findBB_sound hx
    obtain ⟨p, s, _, hwne, _, hrne, _⟩ := hsound
    have hw : w ≠ "" := fun he => hwne (by rw [he])
    have hr : r ≠ "" := fun he => hrne (by rw [he])
    refine ⟨w, r, hx, findBB_sound hx, ?_, ?_⟩
    · simp [extractRepoInfo, hj, hfd, hx, pyTruthy, hw, hr]
    · simp [extractRepoInfo, hj, hfd, hx, pyTruthy, hw, hr]

/-- Witness for the amended C7 on a description containing a well-formed
Bitbucket URL. -/
theorem spec_C7_description_first_witness :
    ∃ w r, findBB (bbDescIssue.description.getD "").data = some (w, r) ∧
      bbOccWith (bbDescIssue.description.getD "").data w.data r.data ∧
      (extractRepoInfo bbDescState).workspace = some w ∧
      (extractRepoInfo bbDescState).repo_slug = some r ∧
      ∀ u', (extractRepoInfo { bbDescState with
          jira_issue := some { bbDescIssue with url := u' } }).workspace = some w ∧
        (extractRepoInfo { bbDescState with
          jira_issue := some { bbDescIssue with url := u' } }).repo_slug = some r :=
  (spec_C7_description_first bbDescState bbDescIssue rfl).1
    ⟨"WS1".data, "REPO1".data, "See ".data, "/browse now".data, by decide, by decide,
      by unfold noSlash; decide, by decide, by unfold noSlash; decide⟩

/-- Claim C8: with workspace and repo_slug resolved, a root listing whose
`files` contain a `web-store` directory entry triggers exactly one second
call with path `web-store` and stores both listings; without that entry only
the root listing is stored; a tool failure at either call nulls
`repo_files` without failing the run. -/
theorem spec_C8_web_store_listing (env : Env)
    (ft : String → String → String → String → Except String FilesPayload)
    (st : AgentState) (ws rs : String)
    (hw : st.workspace = some ws) (hr : st.repo_slug = some rs)
    (hws : ws ≠ "") (hrs : rs ≠ "") :
    (∀ es, ft (bitbucketMcpUrl env) ws rs "" = Except.ok (FilesPayload.filesDict es) →
      (es.any isWebStoreDir = true →
        (listRepoFiles env ft st).2 = ["", "web-store"] ∧
        (∀ w, ft (bitbucketMcpUrl env) ws rs "web-store" = Except.ok w →
          (listRepoFiles env ft st).1 =
            { st with repo_files := some ⟨FilesPayload.filesDict es, some w⟩ }) ∧
        (∀ e, ft (bitbucketMcpUrl env) ws rs "web-store" = Except.error e →
          (listRepoFiles env ft st).1 = { st with repo_files := none })) ∧
      (es.any isWebStoreDir = false →
        (listRepoFiles env ft st).2 = [""] ∧
        (listRepoFiles env ft st).1 =
          { st with repo_files := some ⟨FilesPayload.filesDict es, none⟩ })) ∧
    (∀ e, ft (bitbucketMcpUrl env) ws rs "" = Except.error e →
      (listRepoFiles env ft st).1 = { st with repo_files := none } ∧
      (listRepoFiles env ft st).2 = [""]) := by
  constructor
  · intro es hroot
    constructor
    · intro hfound
      refine ⟨?_, ?_, ?_⟩
      · cases h2 : ft (bitbucketMcpUrl env) ws rs "web-store" <;>
          simp [listRepoFiles, hw, hr, hws, hrs, pyTruthy, createBitbucketTools,
            hroot, hfound, h2]
      · intro w hsecond
        simp [listRepoFiles, hw, hr, hws, hrs, pyTruthy, createBitbucketTools,
          hroot, hfound, hsecond]
      · intro e hsecond
        simp [listRepoFiles, hw, hr, hws, hrs, pyTruthy, createBitbucketTools,
          hroot, hfound, hsecond]
    · intro hfound
      constructor
      · simp [listRepoFiles, hw, hr, hws, hrs, pyTruthy, createBitbucketTools,
          hroot, hfound]
      · simp [listRepoFiles, hw, hr, hws, hrs, pyTruthy, createBitbucketTools,
          hroot, hfound]
  · intro e hroot
    constructor
    · simp [listRepoFiles, hw, hr, hws, hrs, pyTruthy, createBitbucketTools, hroot]
    · simp [listRepoFiles, hw, hr, hws, hrs, pyTruthy, createBitbucketTools, hroot]

/-- Witness for C8: a root listing with the web-store entry leads to the
two-call trace and the combined inventory. -/
theorem spec_C8_web_store_listing_witness :
    (listRepoFiles envUnset c8ft c8state).2 = ["", "web-store"] ∧
      (listRepoFiles envUnset c8ft c8state).1 =
        { c8state with
            repo_files := some (RepoFiles.mk (FilesPayload.filesDict c8root)
              (some (FilesPayload.filesDict []))) } := by
  have h := spec_C8_web_store_listing envUnset c8ft c8state "WS1" "REPO1" rfl rfl
    (by decide) (by decide)
  have hcase := (h.1 c8root rfl).1 (by decide)
  exact ⟨hcase.1, hcase.2.1 (FilesPayload.filesDict []) rfl⟩

/-- Claim C9: synthesize never propagates an LLM exception: on success the
raw response text becomes `final_output` verbatim and is appended to the
messages as an assistant turn, and on any client error `final_output` is the
literal error string embedding the message; either way a final output is
produced. -/
theorem spec_C9_synthesize_no_throw (llm : String → Except String String)
    (st : AgentState) :
    (∀ t, llm (buildPrompt st) = Except.ok t →
      synthesizeOutput llm st =
        { st with final_output := some t, messages := st.messages ++ [Msg.ai t] }) ∧
    (∀ e, llm (buildPrompt st) = Except.error e →
      synthesizeOutput llm st = { st with final_output := some ("Error: " ++ e) }) ∧
    (synthesizeOutput llm st).final_output.isSome = true := by
  refine ⟨?_, ?_, synthesizeOutput_isSome llm st⟩
  · intro t ht
    simp [synthesizeOutput, ht]
  · intro e he
    simp [synthesizeOutput, he]

/-- Witness for C9 with a failing generation client. -/
theorem spec_C9_synthesize_no_throw_witness :
    synthesizeOutput (fun _ => Except.error "boom") {} =
      { ({} : AgentState) with final_output := some ("Error: " ++ "boom") } :=
  (spec_C9_synthesize_no_throw (fun _ => Except.error "boom") {}).2.1 "boom" rfl

/-- Claim C10: when the last message contains no issue-key pattern, a
non-empty pre-existing `jira_issue_key` is left unchanged (the whole state
is returned as is), and the key is set to the empty string only when it was
not already set. -/
theorem spec_C10_preexisting_key (st : AgentState) (m : Msg)
    (hm : st.messages.getLast? = some m) (hno : ¬ hasKey m.content.data) :
    (st.jira_issue_key ≠ "" → processInput st = st) ∧
    (st.jira_issue_key = "" → (processInput st).jira_issue_key = "") := by
  have hfk := findKey_none_of_not_hasKey hno
  have hfull := fullKeyMatch_trim_false hno
  constructor
  · intro hne
    simp [processInput, hm, hfk, hfull, hne]
  · intro he
    simp [processInput, hm, hfk, hfull, he]

/-- Witness for C10: a keyless message leaves the seeded key `ABC-1` intact. -/
theorem spec_C10_preexisting_key_witness :
    processInput c10state = c10state :=
  (spec_C10_preexisting_key c10state (Msg.human "hello there") rfl
    (fun h => by
      obtain ⟨m, hm⟩ := findKey_complete h
      rw [show findKey (Msg.human "hello there").content.data = none by decide] at hm
      exact Option.noConfusion hm)).1 (by decide)
